import Mathlib

/-!
Shallow embedding of the egui-wlr-layer event-dispatch and frame-scheduling
core (src/src/lib.rs, src/src/wp_fractional_scaling.rs, src/src/wp_viewporter.rs).

Modelling conventions:
- f32/f64 values (positions, scale factors, wheel deltas) are modelled as ℚ.
- Wayland object ids (ObjectId) are modelled as Nat; they are only compared.
- HashMap is modelled as an association list where lookup finds the first
  matching key and insert replaces the first matching key.
- Side effects on external collaborators (surface.frame, LayerApp::draw,
  viewport.set_destination, layer.set_input_region, the egui repaint hook)
  are recorded in an explicit effect trace returned next to the new state.
- The egui memory query performed inside LayerApp::draw (visible layer ids,
  their order, and their AreaState) is passed in as an explicit list, since
  the UI engine is an external collaborator.
-/

namespace EguiWlrLayer

/-- Wayland object id (wayland_backend::client::ObjectId), modelled as Nat. -/
abbrev ObjectId := Nat

/-- egui::Pos2 (also used for egui::Vec2), components modelled as ℚ. -/
structure Pos2 where
  x : ℚ
  y : ℚ
deriving DecidableEq

/-- egui::Modifiers. -/
structure Modifiers where
  alt : Bool
  ctrl : Bool
  shift : Bool
  mac_cmd : Bool
  command : Bool
deriving DecidableEq

/-- egui::Modifiers::default(): all flags false. -/
def Modifiers.default : Modifiers :=
  { alt := false, ctrl := false, shift := false, mac_cmd := false, command := false }

/-- egui::PointerButton (the ordinals used by the pointer translation). -/
inductive PointerButton
  | Primary
  | Secondary
  | Middle
  | Extra1
  | Extra2
deriving DecidableEq

/-- egui::TouchPhase. -/
inductive TouchPhase
  | Start
  | Move
  | End
  | Cancel
deriving DecidableEq

/-- egui::MouseWheelUnit; only Line is used by the source. -/
inductive MouseWheelUnit
  | Line
deriving DecidableEq

/-- egui::Key, abstract: the translation table lives outside src/. -/
abbrev EguiKey := Nat

/-- xkb keysym, abstract. -/
abbrev Keysym := Nat

/-- The egui::Event variants produced by this crate. The Touch id field holds
the value of TouchId(id as u64): the i32 id reinterpreted as u64. -/
inductive Event
  | Text (s : String)
  | Key (key : EguiKey) (pressed : Bool) (rep : Bool) (modifiers : Modifiers)
  | PointerMoved (pos : Pos2)
  | PointerGone
  | PointerButton (pos : Pos2) (button : PointerButton) (pressed : Bool) (modifiers : Modifiers)
  | MouseWheel (unit : MouseWheelUnit) (delta : Pos2) (modifiers : Modifiers)
  | Touch (device_id : Nat) (id : Nat) (phase : TouchPhase) (pos : Pos2)
  | WindowFocused (focused : Bool)
deriving DecidableEq

/-- InputRegions policy enum (src/src/lib.rs lines 147-158). -/
inductive InputRegions
  | Full
  | WindowsOnly
  | None
deriving DecidableEq

/-- A wl_region rectangle as passed to Region::add (integer coordinates). -/
structure Rect where
  x : Int
  y : Int
  w : Int
  h : Int
deriving DecidableEq

/-- The input region applied by layer.set_input_region: either None
(no restriction: the entire surface accepts input) or a region built from a
list of added rectangles. -/
inductive RegionSpec
  | unrestricted
  | region (rects : List Rect)
deriving DecidableEq

/-- Whether an integer point lies inside a wl_region rectangle. -/
def Rect.containsB (r : Rect) (px py : Int) : Bool :=
  decide (r.x ≤ px ∧ px < r.x + r.w ∧ r.y ≤ py ∧ py < r.y + r.h)

/-- Whether a point is accepted by an applied input region. -/
def RegionSpec.accepts : RegionSpec → Int → Int → Bool
  | .unrestricted, _, _ => true
  | .region rs, px, py => rs.any (fun r => r.containsB px py)

/-- egui::AreaState, the part read by the draw code: pivot_pos and size. -/
structure AreaState where
  pivot_pos : Option Pos2
  size : Option Pos2
deriving DecidableEq

/-- One layer returned by the egui memory query inside LayerApp::draw:
its order rank (egui::Order, with Background having rank 0, so the source
condition layer.order > Order::Background is 0 < order), whether
areas.is_visible(layer) holds, and the AreaState::load result. -/
structure AreaEntry where
  order : Nat
  visible : Bool
  state : Option AreaState
deriving DecidableEq

/-- Effects on external collaborators, recorded as a trace. -/
inductive Effect
  | request_repaint (sid : ObjectId)
  | frame (sid : ObjectId)
  | draw (sid : ObjectId)
  | set_viewport_destination (sid : ObjectId) (w h : Int)
  | set_input_region (sid : ObjectId) (r : RegionSpec)
deriving DecidableEq

/-- TouchState (src/src/lib.rs lines 84-87). -/
structure TouchState where
  surface_id : ObjectId
  last_position : Pos2
deriving DecidableEq

/-- The modelled fields of LayerApp (src/src/lib.rs lines 403-427): the
state read and written by the protocol handlers.  External handles
(wgpu surface, egui context, layer surface, fractional scale object) are
represented by the effect trace instead. -/
structure LayerApp where
  frame_requested : Bool
  events : List Event
  modifiers : Modifiers
  input_regions : InputRegions
  exit : Bool
  first_configure : Bool
  width : Nat
  height : Nat
  scale : ℚ
  keyboard_focus : Bool
deriving DecidableEq

/-- The modelled fields of ContextDelegate (src/src/lib.rs lines 67-82):
the touch map and the app registry. -/
structure ContextDelegate where
  touches : List (Int × TouchState)
  apps : List (ObjectId × LayerApp)
deriving DecidableEq

/-- Association-list lookup: first matching key (models HashMap::get). -/
def alLookup {α β : Type} [DecidableEq α] : List (α × β) → α → Option β
  | [], _ => none
  | (k, v) :: rest, key => if key = k then some v else alLookup rest key

/-- Association-list insert: replace the first matching key, or append
(models HashMap::insert). -/
def alInsert {α β : Type} [DecidableEq α] : List (α × β) → α → β → List (α × β)
  | [], key, v => [(key, v)]
  | (k, v') :: rest, key, v =>
    if key = k then (key, v) :: rest else (k, v') :: alInsert rest key v

theorem alLookup_alInsert_self {α β : Type} [DecidableEq α]
    (m : List (α × β)) (k : α) (v : β) :
    alLookup (alInsert m k v) k = some v := by
  induction m with
  | nil => simp [alInsert, alLookup]
  | cons hd tl ih =>
    obtain ⟨k', v'⟩ := hd
    by_cases h : k = k' <;> simp [alInsert, alLookup, h, ih]

theorem alLookup_alInsert_ne {α β : Type} [DecidableEq α]
    (m : List (α × β)) (k k' : α) (v : β) (h : k' ≠ k) :
    alLookup (alInsert m k v) k' = alLookup m k' := by
  induction m with
  | nil => simp [alInsert, alLookup, h]
  | cons hd tl ih =>
    obtain ⟨k₀, v₀⟩ := hd
    by_cases hk : k = k₀
    · subst hk; simp [alInsert, alLookup, h]
    · by_cases hk' : k' = k₀ <;> simp [alInsert, alLookup, hk, hk', ih]

theorem alLookup_alInsert_isSome {α β : Type} [DecidableEq α]
    (m : List (α × β)) (k k' : α) (v : β)
    (h : (alLookup m k').isSome) : (alLookup (alInsert m k v) k').isSome := by
  by_cases hk : k' = k
  · subst hk; simp [alLookup_alInsert_self]
  · rwa [alLookup_alInsert_ne m k k' v hk]

/-- DEFAULT_WIDTH (src/src/lib.rs line 59). -/
def DEFAULT_WIDTH : Nat := 1920

/-- DEFAULT_HEIGHT (src/src/lib.rs line 60). -/
def DEFAULT_HEIGHT : Nat := 1080

/-- SCALE_DENOMINATOR (src/src/wp_fractional_scaling.rs line 15). -/
def SCALE_DENOMINATOR : ℚ := 120

/-- TouchId(id as u64): the i32 touch id converted to u64 (sign extension
then reinterpretation, i.e. reduction mod 2^64). -/
def touchIdOfI32 (id : Int) : Nat := (id % (2 : Int) ^ 64).toNat

/-- The repaint-request hook installed with set_request_repaint_callback
(src/src/lib.rs lines 300-308): called with the current frame_requested
flag, returns the new flag and the effect trace.  surface.frame is called
(registering a compositor frame callback) only when the flag was clear;
otherwise the signal is dropped. -/
def request_repaint (sid : ObjectId) (frame_requested : Bool) : Bool × List Effect :=
  if frame_requested = false then
    (true, [.request_repaint sid, .frame sid])
  else
    (frame_requested, [.request_repaint sid])

/-- Iterating n repaint-request signals from a given flag state, returning
the final flag and the number of compositor frame callbacks registered. -/
def signals (sid : ObjectId) : Nat → Bool → Bool × Nat
  | 0, fr => (fr, 0)
  | n + 1, fr =>
    let r := request_repaint sid fr
    let s := signals sid n r.1
    (s.1, r.2.count (Effect.frame sid) + s.2)

/-- The pixel-aligned bounding box Region::add receives for one egui area
(src/src/lib.rs lines 578-583): position floored, size ceiled. -/
def floorCeilRect (pos size : Pos2) : Rect :=
  { x := ⌊pos.x⌋, y := ⌊pos.y⌋, w := ⌈size.x⌉, h := ⌈size.y⌉ }

/-- The rectangles added for InputRegions::WindowsOnly
(src/src/lib.rs lines 559-585): visible layers above the background order
whose AreaState loads and has both pivot_pos and size. -/
def windows_only_rects (areas : List AreaEntry) : List Rect :=
  ((areas.filter fun a => 0 < a.order && a.visible).filterMap fun a =>
    match a.state with
    | some st =>
      match st.pivot_pos, st.size with
      | some pos, some size => some (floorCeilRect pos size)
      | _, _ => none
    | none => none)

/-- The input region applied at the end of LayerApp::draw
(src/src/lib.rs lines 556-596), as a function of the policy and the egui
memory query result. -/
def draw_input_region (policy : InputRegions) (areas : List AreaEntry) : RegionSpec :=
  match policy with
  | .Full => .unrestricted
  | .WindowsOnly => .region (windows_only_rects areas)
  | .None => .region [{ x := 0, y := 0, w := 0, h := 0 }]

/-- LayerApp::draw (src/src/lib.rs lines 450-609), restricted to the
modelled state: clears the frame_requested flag, consumes the pending
event list into the egui raw input, and applies the input-region policy.
The GPU submission and present are external effects summarised by the
draw trace entry. -/
def LayerApp.draw (app : LayerApp) (sid : ObjectId) (areas : List AreaEntry) :
    LayerApp × List Effect :=
  ({ app with frame_requested := false, events := [] },
   [.draw sid, .set_input_region sid (draw_input_region app.input_regions areas)])

/-- The Application Entry inserted by Context::new_layer_app
(src/src/lib.rs lines 294 and 337-360): frame_requested starts true,
first_configure true, size the fallback default, scale 1. -/
def initLayerApp (input_regions : InputRegions) : LayerApp :=
  { frame_requested := true
    events := []
    modifiers := Modifiers.default
    input_regions := input_regions
    exit := false
    first_configure := true
    width := DEFAULT_WIDTH
    height := DEFAULT_HEIGHT
    scale := 1
    keyboard_focus := false }

def new_layer_app (d : ContextDelegate) (sid : ObjectId) (input_regions : InputRegions) :
    ContextDelegate :=
  { d with apps := alInsert d.apps sid (initLayerApp input_regions) }

/-- LayerShellHandler::configure (src/src/lib.rs lines 720-758): a zero
dimension is replaced by the fallback default size, otherwise the reported
size is adopted verbatim; the first configure triggers the first draw. -/
def configure (d : ContextDelegate) (sid : ObjectId) (new_size : Nat × Nat)
    (areas : List AreaEntry) : ContextDelegate × List Effect :=
  match alLookup d.apps sid with
  | none => (d, [])
  | some app =>
    let app :=
      if new_size.1 = 0 ∨ new_size.2 = 0 then
        { app with width := DEFAULT_WIDTH, height := DEFAULT_HEIGHT }
      else
        { app with width := new_size.1, height := new_size.2 }
    if app.first_configure then
      let app := { app with first_configure := false }
      let r := app.draw sid areas
      ({ d with apps := alInsert d.apps sid r.1 }, r.2)
    else
      ({ d with apps := alInsert d.apps sid app }, [])

/-- ContextDelegate::scale_factor_changed (src/src/lib.rs lines 89-110):
no-op when the new factor equals the stored scale; otherwise sets the
viewport destination to the current logical size, stores the new scale,
and draws immediately. -/
def scale_factor_changed (d : ContextDelegate) (sid : ObjectId) (new_factor : ℚ)
    (areas : List AreaEntry) : ContextDelegate × List Effect :=
  match alLookup d.apps sid with
  | none => (d, [])
  | some app =>
    if app.scale = new_factor then
      (d, [])
    else
      let app := { app with scale := new_factor }
      let r := app.draw sid areas
      ({ d with apps := alInsert d.apps sid r.1 },
       Effect.set_viewport_destination sid (app.width : Int) (app.height : Int) :: r.2)

/-- CompositorHandler::scale_factor_changed (src/src/lib.rs lines 612-630),
the integer-scale path: ignored when the stored scale is not an integer,
otherwise forwarded to ContextDelegate::scale_factor_changed. -/
def integer_scale_factor_changed (d : ContextDelegate) (sid : ObjectId) (new_factor : Int)
    (areas : List AreaEntry) : ContextDelegate × List Effect :=
  match alLookup d.apps sid with
  | none => (d, [])
  | some app =>
    if (round app.scale : ℚ) ≠ app.scale then
      (d, [])
    else
      scale_factor_changed d sid (new_factor : ℚ) areas

/-- The WpFractionalScaleV1 PreferredScale dispatch
(src/src/wp_fractional_scaling.rs lines 63-78): forwards scale/120. -/
def fractional_scale_event (d : ContextDelegate) (sid : ObjectId) (scale : Nat)
    (areas : List AreaEntry) : ContextDelegate × List Effect :=
  scale_factor_changed d sid ((scale : ℚ) / SCALE_DENOMINATOR) areas

/-- The pending events of the app registered at sid ([] when none). -/
def eventsOfApps (apps : List (ObjectId × LayerApp)) (sid : ObjectId) : List Event :=
  match alLookup apps sid with
  | some app => app.events
  | none => []

/-- The pending events of the app registered at sid in a delegate state. -/
def eventsOf (d : ContextDelegate) (sid : ObjectId) : List Event :=
  eventsOfApps d.apps sid

/-- The raw key event fields read by ContextDelegate::key_event. -/
structure KeyEvent where
  keysym : Keysym
  utf8 : Option String
deriving DecidableEq

/-- char::is_control for the chars of the utf8 payload: the Unicode Cc
category, U+0000 to U+001F and U+007F to U+009F. -/
def isControlChar (c : Char) : Bool :=
  c.toNat < 0x20 || (0x7f ≤ c.toNat && c.toNat ≤ 0x9f)

/-- Modelled from the spec: keysyms::wl_to_egui (src/src/keysyms.rs is not
among the sources).  The spec says only that it is a partial translation
from key symbols to the UI engine's key codes and that "an unrecognized key
symbol is logged and dropped without emitting a key event".  Modelled as a
partial map with both recognized and unrecognized symbols: symbols below
1000 are recognized (mapped to themselves), the rest are not. -/
def wl_to_egui (k : Keysym) : Option EguiKey :=
  if k < 1000 then some k else none

/-- ContextDelegate::key_event (src/src/lib.rs lines 112-141): delivered to
the app holding keyboard focus; printable text is pushed first; an
unrecognized keysym then returns early (no key event, no repaint request);
otherwise a key event is pushed and a repaint requested. -/
def key_event (d : ContextDelegate) (event : KeyEvent) (pressed : Bool) :
    ContextDelegate × List Effect :=
  match d.apps.find? (fun p => p.2.keyboard_focus) with
  | none => (d, [])
  | some (sid, app) =>
    let app :=
      match event.utf8 with
      | some c =>
        if c ≠ "" && c.data.all (fun ch => !(isControlChar ch)) then
          { app with events := app.events ++ [Event.Text c] }
        else
          app
      | none => app
    match wl_to_egui event.keysym with
    | none => ({ d with apps := alInsert d.apps sid app }, [])
    | some key =>
      let app := { app with events := app.events ++ [Event.Key key pressed false app.modifiers] }
      let r := request_repaint sid app.frame_requested
      ({ d with apps := alInsert d.apps sid { app with frame_requested := r.1 } }, r.2)

/-- KeyboardHandler::enter (src/src/lib.rs lines 830-844): sets keyboard
focus and pushes a WindowFocused(true) event; no repaint request. -/
def keyboard_enter (d : ContextDelegate) (sid : ObjectId) : ContextDelegate × List Effect :=
  match alLookup d.apps sid with
  | none => (d, [])
  | some app =>
    let app := { app with keyboard_focus := true, events := app.events ++ [Event.WindowFocused true] }
    ({ d with apps := alInsert d.apps sid app }, [])

/-- KeyboardHandler::leave (src/src/lib.rs lines 846-858): clears keyboard
focus and pushes a WindowFocused(false) event; no repaint request. -/
def keyboard_leave (d : ContextDelegate) (sid : ObjectId) : ContextDelegate × List Effect :=
  match alLookup d.apps sid with
  | none => (d, [])
  | some app =>
    let app := { app with keyboard_focus := false, events := app.events ++ [Event.WindowFocused false] }
    ({ d with apps := alInsert d.apps sid app }, [])

/-- The raw modifier fields read by KeyboardHandler::update_modifiers. -/
structure RawModifiers where
  alt : Bool
  ctrl : Bool
  shift : Bool
deriving DecidableEq

/-- KeyboardHandler::update_modifiers (src/src/lib.rs lines 882-900):
updates the focused app's modifier state; no event, no repaint request. -/
def update_modifiers (d : ContextDelegate) (m : RawModifiers) : ContextDelegate × List Effect :=
  match d.apps.find? (fun p => p.2.keyboard_focus) with
  | none => (d, [])
  | some (sid, app) =>
    let app := { app with modifiers :=
      { alt := m.alt, ctrl := m.ctrl, shift := m.shift, mac_cmd := false, command := m.ctrl } }
    ({ d with apps := alInsert d.apps sid app }, [])

/-- Linux input-event button codes as re-exported by
smithay_client_toolkit::seat::pointer. -/
def BTN_LEFT : Nat := 0x110

def BTN_RIGHT : Nat := 0x111

def BTN_MIDDLE : Nat := 0x112

def BTN_SIDE : Nat := 0x113

def BTN_EXTRA : Nat := 0x114

def BTN_FORWARD : Nat := 0x115

def BTN_BACK : Nat := 0x116

/-- The button translation inside PointerHandler::pointer_frame
(src/src/lib.rs lines 934-940). -/
def button_to_egui (button : Nat) : PointerButton :=
  if button = BTN_RIGHT then .Secondary
  else if button = BTN_MIDDLE then .Middle
  else if button = BTN_BACK ∨ button = BTN_SIDE then .Extra1
  else if button = BTN_FORWARD ∨ button = BTN_EXTRA then .Extra2
  else .Primary

/-- smithay PointerEventKind, restricted to the fields the source reads:
Axis carries the discrete step counts. -/
inductive PointerEventKind
  | Enter
  | Leave
  | Motion
  | Press (button : Nat)
  | Release (button : Nat)
  | Axis (horizontal_discrete : Int) (vertical_discrete : Int)
deriving DecidableEq

/-- smithay PointerEvent. -/
structure PointerEvent where
  surface : ObjectId
  position : ℚ × ℚ
  kind : PointerEventKind
deriving DecidableEq

/-- The event translation inside PointerHandler::pointer_frame
(src/src/lib.rs lines 915-945): none for Enter (continue). -/
def pointer_event_to_egui (app : LayerApp) (pos : Pos2) (kind : PointerEventKind) :
    Option Event :=
  match kind with
  | .Enter => none
  | .Leave => some Event.PointerGone
  | .Motion => some (Event.PointerMoved pos)
  | .Axis h v =>
    some (Event.MouseWheel MouseWheelUnit.Line { x := (h : ℚ), y := -(v : ℚ) } app.modifiers)
  | .Press b => some (Event.PointerButton pos (button_to_egui b) true app.modifiers)
  | .Release b => some (Event.PointerButton pos (button_to_egui b) false app.modifiers)

/-- One iteration of the loop in PointerHandler::pointer_frame
(src/src/lib.rs lines 911-950). -/
def handle_pointer_event (d : ContextDelegate) (ev : PointerEvent) :
    ContextDelegate × List Effect :=
  match alLookup d.apps ev.surface with
  | none => (d, [])
  | some app =>
    let pos : Pos2 := { x := ev.position.1, y := ev.position.2 }
    match pointer_event_to_egui app pos ev.kind with
    | none => (d, [])
    | some e =>
      let app := { app with events := app.events ++ [e] }
      let r := request_repaint ev.surface app.frame_requested
      ({ d with apps := alInsert d.apps ev.surface { app with frame_requested := r.1 } }, r.2)

/-- PointerHandler::pointer_frame (src/src/lib.rs lines 903-952): the loop
over the event batch. -/
def pointer_frame (d : ContextDelegate) : List PointerEvent → ContextDelegate × List Effect
  | [] => (d, [])
  | ev :: rest =>
    let r := handle_pointer_event d ev
    let s := pointer_frame r.1 rest
    (s.1, r.2 ++ s.2)

/-- TouchHandler::down (src/src/lib.rs lines 955-996): on a live surface,
pushes PointerGone, a Touch Start and a synthetic primary press, records
the touch point, and requests a repaint. -/
def touch_down (d : ContextDelegate) (surface : ObjectId) (id : Int) (position : ℚ × ℚ) :
    ContextDelegate × List Effect :=
  match alLookup d.apps surface with
  | none => (d, [])
  | some app =>
    let pos : Pos2 := { x := position.1, y := position.2 }
    let app := { app with events := app.events ++
      [Event.PointerGone,
       Event.Touch 0 (touchIdOfI32 id) TouchPhase.Start pos,
       Event.PointerButton pos PointerButton.Primary true app.modifiers] }
    let r := request_repaint surface app.frame_requested
    ({ touches := alInsert d.touches id { surface_id := surface, last_position := pos },
       apps := alInsert d.apps surface { app with frame_requested := r.1 } },
     r.2)

/-- TouchHandler::up (src/src/lib.rs lines 998-1029): looks the touch point
up (without removing it), and on a live surface pushes a Touch End, a
synthetic primary release and PointerGone at the last known position, and
requests a repaint. -/
def touch_up (d : ContextDelegate) (id : Int) : ContextDelegate × List Effect :=
  match alLookup d.touches id with
  | none => (d, [])
  | some ts =>
    match alLookup d.apps ts.surface_id with
    | none => (d, [])
    | some app =>
      let app := { app with events := app.events ++
        [Event.Touch 0 (touchIdOfI32 id) TouchPhase.End ts.last_position,
         Event.PointerButton ts.last_position PointerButton.Primary false app.modifiers,
         Event.PointerGone] }
      let r := request_repaint ts.surface_id app.frame_requested
      ({ d with apps := alInsert d.apps ts.surface_id { app with frame_requested := r.1 } },
       r.2)

/-- TouchHandler::motion (src/src/lib.rs lines 1031-1059): on a known touch
point whose surface is live, pushes a Touch Move and a PointerMoved event,
updates the last known position, and requests a repaint. -/
def touch_motion (d : ContextDelegate) (id : Int) (position : ℚ × ℚ) :
    ContextDelegate × List Effect :=
  match alLookup d.touches id with
  | none => (d, [])
  | some ts =>
    match alLookup d.apps ts.surface_id with
    | none => (d, [])
    | some app =>
      let pos : Pos2 := { x := position.1, y := position.2 }
      let app := { app with events := app.events ++
        [Event.Touch 0 (touchIdOfI32 id) TouchPhase.Move pos, Event.PointerMoved pos] }
      let r := request_repaint ts.surface_id app.frame_requested
      ({ touches := alInsert d.touches id { ts with last_position := pos },
         apps := alInsert d.apps ts.surface_id { app with frame_requested := r.1 } },
       r.2)

/-- Insertion into the HashSet of surfaces collected by
TouchHandler::cancel, modelled as duplicate-free list insertion. -/
def insertSet (l : List ObjectId) (s : ObjectId) : List ObjectId :=
  if s ∈ l then l else s :: l

/-- The first loop of TouchHandler::cancel (src/src/lib.rs lines 1088-1100):
for every taken touch point with a live surface, push a Touch Cancel event
and collect the surface id. -/
def cancel_pass1 (apps : List (ObjectId × LayerApp)) :
    List (Int × TouchState) → List (ObjectId × LayerApp) × List ObjectId
  | [] => (apps, [])
  | (id, ts) :: rest =>
    match alLookup apps ts.surface_id with
    | none => cancel_pass1 apps rest
    | some app =>
      let apps := alInsert apps ts.surface_id
        { app with events := app.events ++ [Event.Touch 0 (touchIdOfI32 id) TouchPhase.Cancel ts.last_position] }
      let r := cancel_pass1 apps rest
      (r.1, insertSet r.2 ts.surface_id)

/-- The second loop of TouchHandler::cancel (src/src/lib.rs lines 1102-1107):
for every collected surface still live, push PointerGone and request a
repaint. -/
def cancel_pass2 (apps : List (ObjectId × LayerApp)) :
    List ObjectId → List (ObjectId × LayerApp) × List Effect
  | [] => (apps, [])
  | sid :: rest =>
    match alLookup apps sid with
    | none => cancel_pass2 apps rest
    | some app =>
      let app := { app with events := app.events ++ [Event.PointerGone] }
      let r := request_repaint sid app.frame_requested
      let s := cancel_pass2 (alInsert apps sid { app with frame_requested := r.1 }) rest
      (s.1, r.2 ++ s.2)

/-- TouchHandler::cancel (src/src/lib.rs lines 1084-1108): takes the whole
touch map (clearing it) and runs the two loops. -/
def touch_cancel (d : ContextDelegate) : ContextDelegate × List Effect :=
  let p1 := cancel_pass1 d.apps d.touches
  let p2 := cancel_pass2 p1.1 p1.2
  ({ touches := [], apps := p2.1 }, p2.2)

/-- std::io::ErrorKind, restricted to the distinction the source makes. -/
inductive IoErrorKind
  | WouldBlock
  | Other (code : Nat)
deriving DecidableEq

/-- wayland_backend WaylandError. -/
inductive WaylandError
  | Io (kind : IoErrorKind)
  | Protocol (code : Nat)
deriving DecidableEq

/-- wayland_client DispatchError; Backend wraps a WaylandError (the From
conversion used by the question-mark operator and by e.into()). -/
inductive DispatchError
  | BadMessage (info : Nat)
  | Backend (e : WaylandError)
deriving DecidableEq

/-- The steps poll_dispatch takes on the transport, recorded as a trace. -/
inductive PollStep
  | dispatchPending
  | flushed
  | readAttempt
deriving DecidableEq

/-- The outcomes of the transport operations poll_dispatch performs, taken
as an environment (the transport is an external collaborator). -/
structure PollEnv where
  dispatch_pending_1 : Except DispatchError Nat
  flush : Option WaylandError
  prepare_read_ok : Bool
  read : Except WaylandError Nat
  dispatch_pending_2 : Except DispatchError Nat

/-- Context::poll_dispatch (src/src/lib.rs lines 365-382): dispatch
already-buffered events first; if none, flush, then one non-blocking read:
Ok dispatches again, a WouldBlock io error is Ok(0), any other error is
returned. -/
def poll_dispatch (env : PollEnv) : Except DispatchError Nat × List PollStep :=
  match env.dispatch_pending_1 with
  | .error e => (.error e, [.dispatchPending])
  | .ok dispatched =>
    if 0 < dispatched then
      (.ok dispatched, [.dispatchPending])
    else
      match env.flush with
      | some e => (.error (.Backend e), [.dispatchPending, .flushed])
      | none =>
        if env.prepare_read_ok then
          match env.read with
          | .ok _ =>
            (env.dispatch_pending_2, [.dispatchPending, .flushed, .readAttempt, .dispatchPending])
          | .error (.Io .WouldBlock) =>
            (.ok 0, [.dispatchPending, .flushed, .readAttempt])
          | .error e =>
            (.error (.Backend e), [.dispatchPending, .flushed, .readAttempt])
        else
          (.ok 0, [.dispatchPending, .flushed])

/-! Concrete fixtures used by witnesses and counterexamples. -/

/-- A registered app with keyboard focus, no pending events, idle frame flag. -/
def appFix : LayerApp :=
  { frame_requested := false
    events := []
    modifiers := Modifiers.default
    input_regions := .Full
    exit := false
    first_configure := true
    width := 1920
    height := 1080
    scale := 1
    keyboard_focus := true }

/-- A delegate with the single app appFix registered at surface id 0. -/
def dFix : ContextDelegate := { touches := [], apps := [(0, appFix)] }

/-- A registered app under fractional scaling (stored scale 3/2). -/
def appFrac : LayerApp := { appFix with scale := 3 / 2, first_configure := false }

/-- A delegate with the single app appFrac registered at surface id 0. -/
def dFrac : ContextDelegate := { touches := [], apps := [(0, appFrac)] }

/-! Helper lemmas. -/

theorem request_repaint_self_mem (sid : ObjectId) (fr : Bool) :
    Effect.request_repaint sid ∈ (request_repaint sid fr).2 := by
  cases fr <;> simp [request_repaint]

theorem signals_requested (sid : ObjectId) (n : Nat) :
    signals sid n true = (true, 0) := by
  induction n with
  | zero => rfl
  | succ n ih => simp [signals, request_repaint, ih, List.count_cons]

theorem signals_idle (sid : ObjectId) (n : Nat) :
    signals sid (n + 1) false = (true, 1) := by
  simp [signals, request_repaint, signals_requested, List.count_cons]

theorem eventsOfApps_alInsert_self (apps : List (ObjectId × LayerApp)) (sid : ObjectId)
    (a : LayerApp) : eventsOfApps (alInsert apps sid a) sid = a.events := by
  simp [eventsOfApps, alLookup_alInsert_self]

theorem eventsOfApps_alInsert_ne (apps : List (ObjectId × LayerApp)) (sid s : ObjectId)
    (a : LayerApp) (h : sid ≠ s) :
    eventsOfApps (alInsert apps s a) sid = eventsOfApps apps sid := by
  simp [eventsOfApps, alLookup_alInsert_ne apps s sid a h]

/-- C1: for every surface, at most one compositor frame request is outstanding
at any time: a repaint-request signal arriving while the Requested flag is set
is dropped (no frame callback registered, flag unchanged); a frame callback is
registered exactly when the flag was clear; any number of signals fired while
in Requested registers zero callbacks, and from Idle a burst of n+1 signals
registers exactly one. -/
theorem C1_frame_request_coalescing :
    (∀ sid : ObjectId, request_repaint sid true = (true, [Effect.request_repaint sid])) ∧
    (∀ (sid : ObjectId) (fr : Bool),
      Effect.frame sid ∈ (request_repaint sid fr).2 ↔ fr = false) ∧
    (∀ (sid : ObjectId) (n : Nat), signals sid n true = (true, 0)) ∧
    (∀ (sid : ObjectId) (n : Nat), signals sid (n + 1) false = (true, 1)) := by
  refine ⟨fun sid => by simp [request_repaint], fun sid fr => ?_,
    signals_requested, signals_idle⟩
  cases fr <;> simp [request_repaint]

/-- Witness for C1 at surface id 0 and a burst of 4 signals. -/
theorem C1_frame_request_coalescing_witness :
    request_repaint 0 true = (true, [Effect.request_repaint 0]) ∧
    signals 0 4 true = (true, 0) ∧ signals 0 4 false = (true, 1) :=
  ⟨C1_frame_request_coalescing.1 0, C1_frame_request_coalescing.2.2.1 0 4,
   C1_frame_request_coalescing.2.2.2 0 3⟩

/-- C2: a configure whose reported size is zero in either dimension stores the
fallback default size; a configure with both dimensions non-zero stores the
reported size verbatim; in either case the stored logical size is non-zero in
both dimensions. -/
theorem C2_configure_size :
    ∀ (d : ContextDelegate) (sid : ObjectId) (sz : Nat × Nat) (areas : List AreaEntry)
      (app : LayerApp), alLookup d.apps sid = some app →
      ∃ app2, alLookup (configure d sid sz areas).1.apps sid = some app2 ∧
        ((sz.1 = 0 ∨ sz.2 = 0) → app2.width = DEFAULT_WIDTH ∧ app2.height = DEFAULT_HEIGHT) ∧
        (¬(sz.1 = 0 ∨ sz.2 = 0) → app2.width = sz.1 ∧ app2.height = sz.2) ∧
        app2.width ≠ 0 ∧ app2.height ≠ 0 := by
  intro d sid sz areas app h
  by_cases hz : sz.1 = 0 ∨ sz.2 = 0
  · by_cases hf : app.first_configure
    · refine ⟨{ app with
                width := DEFAULT_WIDTH
                height := DEFAULT_HEIGHT
                first_configure := false
                frame_requested := false
                events := [] },
        ?_, fun _ => ⟨rfl, rfl⟩, fun hc => absurd hz hc, by simp [DEFAULT_WIDTH],
        by simp [DEFAULT_HEIGHT]⟩
      simp [configure, h, hz, hf, LayerApp.draw, alLookup_alInsert_self]
    · refine ⟨{ app with width := DEFAULT_WIDTH, height := DEFAULT_HEIGHT },
        ?_, fun _ => ⟨rfl, rfl⟩, fun hc => absurd hz hc, by simp [DEFAULT_WIDTH],
        by simp [DEFAULT_HEIGHT]⟩
      simp [configure, h, hz, hf, alLookup_alInsert_self]
  · have h1 : sz.1 ≠ 0 := fun hc => hz (Or.inl hc)
    have h2 : sz.2 ≠ 0 := fun hc => hz (Or.inr hc)
    by_cases hf : app.first_configure
    · refine ⟨{ app with
                width := sz.1
                height := sz.2
                first_configure := false
                frame_requested := false
                events := [] },
        ?_, fun hc => absurd hc hz, fun _ => ⟨rfl, rfl⟩, h1, h2⟩
      simp [configure, h, hz, hf, LayerApp.draw, alLookup_alInsert_self]
    · refine ⟨{ app with width := sz.1, height := sz.2 },
        ?_, fun hc => absurd hc hz, fun _ => ⟨rfl, rfl⟩, h1, h2⟩
      simp [configure, h, hz, hf, alLookup_alInsert_self]

/-- Witness for C2: a configure reporting (0, 5) stores the fallback
1920x1080, and one reporting (800, 600) stores it verbatim. -/
theorem C2_configure_size_witness :
    alLookup dFix.apps 0 = some appFix ∧
    (∃ app2, alLookup (configure dFix 0 (0, 5) []).1.apps 0 = some app2 ∧
      ((0 = 0 ∨ 5 = 0) → app2.width = DEFAULT_WIDTH ∧ app2.height = DEFAULT_HEIGHT) ∧
      (¬(0 = 0 ∨ 5 = 0) → app2.width = 0 ∧ app2.height = 5) ∧
      app2.width ≠ 0 ∧ app2.height ≠ 0) ∧
    (∃ app2, alLookup (configure dFix 0 (800, 600) []).1.apps 0 = some app2 ∧
      ((800 = 0 ∨ 600 = 0) → app2.width = DEFAULT_WIDTH ∧ app2.height = DEFAULT_HEIGHT) ∧
      (¬(800 = 0 ∨ 600 = 0) → app2.width = 800 ∧ app2.height = 600) ∧
      app2.width ≠ 0 ∧ app2.height ≠ 0) :=
  ⟨by decide, C2_configure_size dFix 0 (0, 5) [] appFix (by decide),
   C2_configure_size dFix 0 (800, 600) [] appFix (by decide)⟩

/-- C10: at registration the repaint-request flag starts true (with no frame
callback registered yet) and the first-configure flag starts true; every
repaint-request signal arriving in that state is dropped and registers no
frame callback; the first configure performs the first draw, which clears
the flag. -/
theorem C10_initial_frame_requested :
    (∀ (d : ContextDelegate) (sid : ObjectId) (policy : InputRegions),
      ∃ app, alLookup (new_layer_app d sid policy).apps sid = some app ∧
        app.frame_requested = true ∧ app.first_configure = true) ∧
    (∀ (sid : ObjectId) (n : Nat), signals sid n true = (true, 0)) ∧
    (∀ (d : ContextDelegate) (sid : ObjectId) (policy : InputRegions)
       (sz : Nat × Nat) (areas : List AreaEntry),
      ∃ app2, alLookup (configure (new_layer_app d sid policy) sid sz areas).1.apps sid =
          some app2 ∧
        app2.frame_requested = false ∧ app2.first_configure = false ∧
        Effect.draw sid ∈ (configure (new_layer_app d sid policy) sid sz areas).2) := by
  refine ⟨fun d sid policy =>
      ⟨initLayerApp policy, by simp [new_layer_app, alLookup_alInsert_self], rfl, rfl⟩,
    signals_requested, fun d sid policy sz areas => ?_⟩
  by_cases hz : sz.1 = 0 ∨ sz.2 = 0
  · exact ⟨{ initLayerApp policy with
             first_configure := false
             frame_requested := false
             events := [] },
      by simp [configure, new_layer_app, alLookup_alInsert_self, hz, LayerApp.draw,
               initLayerApp],
      rfl, rfl,
      by simp [configure, new_layer_app, alLookup_alInsert_self, hz, LayerApp.draw,
               initLayerApp]⟩
  · exact ⟨{ initLayerApp policy with
             width := sz.1
             height := sz.2
             first_configure := false
             frame_requested := false
             events := [] },
      by simp [configure, new_layer_app, alLookup_alInsert_self, hz, LayerApp.draw,
               initLayerApp],
      rfl, rfl,
      by simp [configure, new_layer_app, alLookup_alInsert_self, hz, LayerApp.draw,
               initLayerApp]⟩

/-- Witness for C10 at surface id 0, policy Full, configure size (800, 600). -/
theorem C10_initial_frame_requested_witness :
    (∃ app, alLookup (new_layer_app dFix 0 .Full).apps 0 = some app ∧
      app.frame_requested = true ∧ app.first_configure = true) ∧
    signals 0 3 true = (true, 0) ∧
    (∃ app2, alLookup (configure (new_layer_app dFix 0 .Full) 0 (800, 600) []).1.apps 0 =
        some app2 ∧
      app2.frame_requested = false ∧ app2.first_configure = false ∧
      Effect.draw 0 ∈ (configure (new_layer_app dFix 0 .Full) 0 (800, 600) []).2) :=
  ⟨C10_initial_frame_requested.1 dFix 0 .Full, C10_initial_frame_requested.2.1 0 3,
   C10_initial_frame_requested.2.2 dFix 0 .Full (800, 600) []⟩

/-- C3: a touch-down on a live surface immediately followed by a touch-up with
the same id and no intervening motion appends exactly, in order: pointer-gone,
touch-start at the touch position, primary press at the touch position,
touch-end at the last known (same) position, primary release, pointer-gone. -/
theorem C3_touch_down_up_sequence :
    ∀ (d : ContextDelegate) (sid : ObjectId) (id : Int) (pos : ℚ × ℚ) (app : LayerApp),
      alLookup d.apps sid = some app →
      eventsOf (touch_up (touch_down d sid id pos).1 id).1 sid =
        app.events ++
          [Event.PointerGone,
           Event.Touch 0 (touchIdOfI32 id) TouchPhase.Start ⟨pos.1, pos.2⟩,
           Event.PointerButton ⟨pos.1, pos.2⟩ PointerButton.Primary true app.modifiers,
           Event.Touch 0 (touchIdOfI32 id) TouchPhase.End ⟨pos.1, pos.2⟩,
           Event.PointerButton ⟨pos.1, pos.2⟩ PointerButton.Primary false app.modifiers,
           Event.PointerGone] := by
  intro d sid id pos app h
  simp [touch_down, h, touch_up, request_repaint, alLookup_alInsert_self, eventsOf,
    eventsOfApps]

/-- Witness for C3: surface 0, touch id 1 at position (2, 3) on dFix. -/
theorem C3_touch_down_up_sequence_witness :
    alLookup dFix.apps 0 = some appFix ∧
    eventsOf (touch_up (touch_down dFix 0 1 (2, 3)).1 1).1 0 =
      appFix.events ++
        [Event.PointerGone,
         Event.Touch 0 (touchIdOfI32 1) TouchPhase.Start ⟨2, 3⟩,
         Event.PointerButton ⟨2, 3⟩ PointerButton.Primary true appFix.modifiers,
         Event.Touch 0 (touchIdOfI32 1) TouchPhase.End ⟨2, 3⟩,
         Event.PointerButton ⟨2, 3⟩ PointerButton.Primary false appFix.modifiers,
         Event.PointerGone] :=
  ⟨by decide, C3_touch_down_up_sequence dFix 0 1 (2, 3) appFix (by decide)⟩

/-- C4 counterexample: after touch-down (surface 0, id 1, position (2,3)) and
the matching touch-up, the Touch Point for id 1 is still in the touch map,
refuting the claim that no Touch Point for the id remains after touch-up. -/
theorem C4_touch_up_retains_entry_counterexample :
    alLookup ((touch_up (touch_down dFix 0 1 (2, 3)).1 1).1).touches 1 =
      some { surface_id := 0, last_position := ⟨2, 3⟩ } ∧
    alLookup ((touch_up (touch_down dFix 0 1 (2, 3)).1 1).1).touches 1 ≠ none := by
  refine ⟨by decide, ?_⟩
  intro hc
  simp [show alLookup ((touch_up (touch_down dFix 0 1 (2, 3)).1 1).1).touches 1 =
    some { surface_id := 0, last_position := ⟨2, 3⟩ } from by decide] at hc

/-- C4 (amended): a Touch Point is created on touch-down on a live surface,
updated on touch motion, and destroyed on global cancellation; a touch-up,
however, leaves the touch map unchanged (the entry for the id remains). -/
theorem C4_touch_point_lifecycle :
    (∀ (d : ContextDelegate) (s : ObjectId) (id : Int) (pos : ℚ × ℚ) (app : LayerApp),
      alLookup d.apps s = some app →
      alLookup (touch_down d s id pos).1.touches id =
        some { surface_id := s, last_position := ⟨pos.1, pos.2⟩ }) ∧
    (∀ (d : ContextDelegate) (id : Int) (pos : ℚ × ℚ) (ts : TouchState) (app : LayerApp),
      alLookup d.touches id = some ts → alLookup d.apps ts.surface_id = some app →
      alLookup (touch_motion d id pos).1.touches id =
        some { surface_id := ts.surface_id, last_position := ⟨pos.1, pos.2⟩ }) ∧
    (∀ (d : ContextDelegate) (id : Int), (touch_up d id).1.touches = d.touches) ∧
    (∀ d : ContextDelegate, (touch_cancel d).1.touches = []) := by
  refine ⟨fun d s id pos app h => ?_, fun d id pos ts app ht ha => ?_,
    fun d id => ?_, fun d => rfl⟩
  · simp [touch_down, h, alLookup_alInsert_self]
  · simp [touch_motion, ht, ha, alLookup_alInsert_self]
  · unfold touch_up
    cases hts : alLookup d.touches id with
    | none => rfl
    | some ts =>
      cases ha : alLookup d.apps ts.surface_id with
      | none => simp [ha]
      | some app => simp [ha]

/-- Witness for C4 (amended) on dFix: creation at touch-down, update at
motion, preservation at touch-up, clearing at cancellation. -/
theorem C4_touch_point_lifecycle_witness :
    alLookup dFix.apps 0 = some appFix ∧
    alLookup (touch_down dFix 0 1 (2, 3)).1.touches 1 =
      some { surface_id := 0, last_position := ⟨2, 3⟩ } ∧
    (touch_up (touch_down dFix 0 1 (2, 3)).1 1).1.touches =
      (touch_down dFix 0 1 (2, 3)).1.touches ∧
    (touch_cancel (touch_down dFix 0 1 (2, 3)).1).1.touches = [] :=
  ⟨by decide, C4_touch_point_lifecycle.1 dFix 0 1 (2, 3) appFix (by decide),
   C4_touch_point_lifecycle.2.2.1 (touch_down dFix 0 1 (2, 3)).1 1,
   C4_touch_point_lifecycle.2.2.2 (touch_down dFix 0 1 (2, 3)).1⟩

/-- C5: an integer scale update is ignored (no state change, no effect)
whenever the stored scale factor is not an integer; a fractional scale
update is the forwarded preferred scale divided by 120 and always takes
effect when it differs from the stored scale; every effective scale change
stores the new scale, sets the viewport logical destination to the current
logical width and height, and performs an immediate draw. -/
theorem C5_scale_factor_handling :
    (∀ (d : ContextDelegate) (sid : ObjectId) (k : Int) (areas : List AreaEntry)
       (app : LayerApp), alLookup d.apps sid = some app →
      (round app.scale : ℚ) ≠ app.scale →
      integer_scale_factor_changed d sid k areas = (d, [])) ∧
    (∀ (d : ContextDelegate) (sid : ObjectId) (s : Nat) (areas : List AreaEntry),
      fractional_scale_event d sid s areas =
        scale_factor_changed d sid ((s : ℚ) / SCALE_DENOMINATOR) areas) ∧
    (∀ (d : ContextDelegate) (sid : ObjectId) (f : ℚ) (areas : List AreaEntry)
       (app : LayerApp), alLookup d.apps sid = some app → f ≠ app.scale →
      ∃ app2, alLookup (scale_factor_changed d sid f areas).1.apps sid = some app2 ∧
        app2.scale = f ∧ app2.frame_requested = false ∧
        (scale_factor_changed d sid f areas).2 =
          [Effect.set_viewport_destination sid (app.width : Int) (app.height : Int),
           Effect.draw sid,
           Effect.set_input_region sid (draw_input_region app.input_regions areas)]) := by
  refine ⟨fun d sid k areas app h hr => ?_, fun d sid s areas => rfl,
    fun d sid f areas app h hf => ?_⟩
  · simp [integer_scale_factor_changed, h, hr]
  · refine ⟨{ app with scale := f, frame_requested := false, events := [] }, ?_, rfl, rfl, ?_⟩
    · simp [scale_factor_changed, h, Ne.symm hf, LayerApp.draw, alLookup_alInsert_self]
    · simp [scale_factor_changed, h, Ne.symm hf, LayerApp.draw]

/-- Witness for C5: on dFrac (scale 3/2) an integer update to 2 is ignored;
on dFix (scale 1) an effective change to 2 stores scale 2, sets the
viewport destination to 1920x1080 and draws immediately. -/
theorem C5_scale_factor_handling_witness :
    alLookup dFrac.apps 0 = some appFrac ∧
    (round appFrac.scale : ℚ) ≠ appFrac.scale ∧
    integer_scale_factor_changed dFrac 0 2 [] = (dFrac, []) ∧
    alLookup dFix.apps 0 = some appFix ∧
    (2 : ℚ) ≠ appFix.scale ∧
    (∃ app2, alLookup (scale_factor_changed dFix 0 2 []).1.apps 0 = some app2 ∧
      app2.scale = 2 ∧ app2.frame_requested = false ∧
      (scale_factor_changed dFix 0 2 []).2 =
        [Effect.set_viewport_destination 0 (appFix.width : Int) (appFix.height : Int),
         Effect.draw 0,
         Effect.set_input_region 0 (draw_input_region appFix.input_regions [])]) := by
  have hr : (round appFrac.scale : ℚ) ≠ appFrac.scale := by
    simp only [appFrac, appFix]
    norm_num [round_eq]
  have hf : (2 : ℚ) ≠ appFix.scale := by
    simp only [appFix]
    norm_num
  exact ⟨rfl, hr,
    C5_scale_factor_handling.1 dFrac 0 2 [] appFrac rfl hr,
    rfl, hf,
    C5_scale_factor_handling.2.2 dFix 0 2 [] appFix rfl hf⟩

/-- C6: every draw applies exactly the input region the policy dictates:
Full applies no restriction, None applies a region accepting no point, and
WindowsOnly accepts exactly the points inside the union of the pixel-aligned
bounding boxes of the visible above-background areas with known position and
size (covering zero, one, or several overlapping areas). -/
theorem C6_input_region_policy :
    (∀ (app : LayerApp) (sid : ObjectId) (areas : List AreaEntry),
      (app.draw sid areas).2 =
        [Effect.draw sid,
         Effect.set_input_region sid (draw_input_region app.input_regions areas)]) ∧
    (∀ areas : List AreaEntry, draw_input_region .Full areas = .unrestricted) ∧
    (∀ (areas : List AreaEntry) (px py : Int),
      (draw_input_region .None areas).accepts px py = false) ∧
    (∀ (areas : List AreaEntry) (px py : Int),
      (draw_input_region .WindowsOnly areas).accepts px py = true ↔
        ∃ a ∈ areas, 0 < a.order ∧ a.visible = true ∧
          ∃ pos size, a.state = some { pivot_pos := some pos, size := some size } ∧
            (floorCeilRect pos size).containsB px py = true) := by
  refine ⟨fun app sid areas => rfl, fun areas => rfl, ?_, ?_⟩
  · intro areas px py
    have h0 : Rect.containsB { x := 0, y := 0, w := 0, h := 0 } px py = false := by
      simp only [Rect.containsB, decide_eq_false_iff_not]
      omega
    simp [draw_input_region, RegionSpec.accepts, h0]
  · intro areas px py
    simp only [draw_input_region, RegionSpec.accepts, windows_only_rects,
      List.any_eq_true, List.mem_filterMap, List.mem_filter, Bool.and_eq_true,
      decide_eq_true_eq]
    constructor
    · rintro ⟨r, ⟨a, ⟨ha, horder, hvis⟩, hfn⟩, hc⟩
      rcases hst : a.state with _ | ⟨pp, szf⟩
      · rw [hst] at hfn
        exact absurd hfn (by simp)
      · rcases pp with _ | pos
        · rw [hst] at hfn
          exact absurd hfn (by simp)
        · rcases szf with _ | size
          · rw [hst] at hfn
            exact absurd hfn (by simp)
          · rw [hst] at hfn
            simp only [Option.some_inj] at hfn
            exact ⟨a, ha, horder, hvis, pos, size, hst, hfn ▸ hc⟩
    · rintro ⟨a, ha, horder, hvis, pos, size, hstate, hc⟩
      exact ⟨floorCeilRect pos size, ⟨a, ⟨ha, horder, hvis⟩, by rw [hstate]⟩, hc⟩

/-- A visible above-background area at (10,10) sized 5x5. -/
def areaFix : AreaEntry :=
  { order := 2
    visible := true
    state := some { pivot_pos := some ⟨10, 10⟩, size := some ⟨5, 5⟩ } }

/-- Witness for C6: with one visible above-background area at (10,10) sized
5x5, WindowsOnly accepts (12,12) and None accepts nothing; Full applies no
restriction. -/
theorem C6_input_region_policy_witness :
    draw_input_region .Full [areaFix] = .unrestricted ∧
    (draw_input_region .None [areaFix]).accepts 12 12 = false ∧
    ((draw_input_region .WindowsOnly [areaFix]).accepts 12 12 = true ↔
      ∃ a ∈ [areaFix], 0 < a.order ∧ a.visible = true ∧
        ∃ pos size, a.state = some { pivot_pos := some pos, size := some size } ∧
          (floorCeilRect pos size).containsB 12 12 = true) :=
  ⟨C6_input_region_policy.2.1 [areaFix],
   C6_input_region_policy.2.2.1 [areaFix] 12 12,
   C6_input_region_policy.2.2.2 [areaFix] 12 12⟩

/-- C7: poll processes already-buffered events and returns their count
without touching the transport; otherwise it flushes and makes exactly one
non-blocking read attempt: would-block is normalized to zero events
processed, any other transport error is surfaced unchanged; in every case
at most one read attempt is made (no internal retry). -/
theorem C7_poll_nonblocking :
    (∀ (env : PollEnv) (n : Nat), env.dispatch_pending_1 = .ok n → 0 < n →
      poll_dispatch env = (.ok n, [.dispatchPending])) ∧
    (∀ env : PollEnv, env.dispatch_pending_1 = .ok 0 → env.flush = none →
      env.prepare_read_ok = true → env.read = .error (.Io .WouldBlock) →
      poll_dispatch env = (.ok 0, [.dispatchPending, .flushed, .readAttempt])) ∧
    (∀ (env : PollEnv) (e : WaylandError), env.dispatch_pending_1 = .ok 0 →
      env.flush = none → env.prepare_read_ok = true → env.read = .error e →
      e ≠ .Io .WouldBlock →
      poll_dispatch env =
        (.error (.Backend e), [.dispatchPending, .flushed, .readAttempt])) ∧
    (∀ env : PollEnv, (poll_dispatch env).2.count PollStep.readAttempt ≤ 1) := by
  refine ⟨fun env n h1 hn => by simp [poll_dispatch, h1, hn],
    fun env h1 h2 h3 h4 => by simp [poll_dispatch, h1, h2, h3, h4],
    fun env e h1 h2 h3 h4 hne => ?_, fun env => ?_⟩
  · rcases e with k | c
    · rcases k with _ | c
      · exact absurd rfl hne
      · simp [poll_dispatch, h1, h2, h3, h4]
    · simp [poll_dispatch, h1, h2, h3, h4]
  · obtain ⟨dp1, fl, pr, rd, dp2⟩ := env
    unfold poll_dispatch
    rcases dp1 with e | n
    · simp [List.count_cons]
    · dsimp only
      by_cases hn : 0 < n
      · simp [hn, List.count_cons]
      · rw [if_neg hn]
        rcases fl with _ | e
        · dsimp only
          cases pr
          · simp [List.count_cons]
          · rw [if_pos rfl]
            rcases rd with e | k
            · rcases e with k | c
              · rcases k with _ | c <;> simp [List.count_cons]
              · simp [List.count_cons]
            · simp [List.count_cons]
        · simp [List.count_cons]

/-- Witness for C7: concrete environments for the buffered, would-block and
hard-error paths. -/
theorem C7_poll_nonblocking_witness :
    ({ dispatch_pending_1 := .ok 3, flush := none, prepare_read_ok := true,
       read := .ok 0, dispatch_pending_2 := .ok 7 } : PollEnv).dispatch_pending_1 =
        .ok 3 ∧
    poll_dispatch
      { dispatch_pending_1 := .ok 3, flush := none, prepare_read_ok := true,
        read := .ok 0, dispatch_pending_2 := .ok 7 } = (.ok 3, [.dispatchPending]) ∧
    poll_dispatch
      { dispatch_pending_1 := .ok 0, flush := none, prepare_read_ok := true,
        read := .error (.Io .WouldBlock), dispatch_pending_2 := .ok 7 } =
      (.ok 0, [.dispatchPending, .flushed, .readAttempt]) ∧
    poll_dispatch
      { dispatch_pending_1 := .ok 0, flush := none, prepare_read_ok := true,
        read := .error (.Protocol 4), dispatch_pending_2 := .ok 7 } =
      (.error (.Backend (.Protocol 4)), [.dispatchPending, .flushed, .readAttempt]) :=
  ⟨rfl,
   C7_poll_nonblocking.1 _ 3 rfl (by decide),
   C7_poll_nonblocking.2.1 _ rfl rfl rfl rfl,
   C7_poll_nonblocking.2.2.1 _ (.Protocol 4) rfl rfl rfl rfl (by decide)⟩

/-- C9: pointer event translation on a live surface: motion appends a
position update at the reported position, leave appends pointer-gone, enter
appends nothing, press/release append a button event under the fixed code
mapping (right to secondary, middle to middle, back/side to extra1,
forward/extra to extra2, left and every unrecognized code to primary), and
scrolling appends a line-unit wheel event with the discrete horizontal step
count and the negated discrete vertical step count. -/
theorem C9_pointer_translation :
    ∀ (d : ContextDelegate) (sid : ObjectId) (q : ℚ × ℚ) (app : LayerApp),
      alLookup d.apps sid = some app →
      (eventsOf (handle_pointer_event d ⟨sid, q, .Motion⟩).1 sid =
        app.events ++ [Event.PointerMoved ⟨q.1, q.2⟩]) ∧
      (eventsOf (handle_pointer_event d ⟨sid, q, .Leave⟩).1 sid =
        app.events ++ [Event.PointerGone]) ∧
      (handle_pointer_event d ⟨sid, q, .Enter⟩ = (d, [])) ∧
      (∀ b : Nat, eventsOf (handle_pointer_event d ⟨sid, q, .Press b⟩).1 sid =
        app.events ++
          [Event.PointerButton ⟨q.1, q.2⟩ (button_to_egui b) true app.modifiers]) ∧
      (∀ b : Nat, eventsOf (handle_pointer_event d ⟨sid, q, .Release b⟩).1 sid =
        app.events ++
          [Event.PointerButton ⟨q.1, q.2⟩ (button_to_egui b) false app.modifiers]) ∧
      (∀ hs vs : Int, eventsOf (handle_pointer_event d ⟨sid, q, .Axis hs vs⟩).1 sid =
        app.events ++
          [Event.MouseWheel MouseWheelUnit.Line ⟨(hs : ℚ), -(vs : ℚ)⟩ app.modifiers]) ∧
      button_to_egui BTN_RIGHT = .Secondary ∧
      button_to_egui BTN_MIDDLE = .Middle ∧
      button_to_egui BTN_BACK = .Extra1 ∧ button_to_egui BTN_SIDE = .Extra1 ∧
      button_to_egui BTN_FORWARD = .Extra2 ∧ button_to_egui BTN_EXTRA = .Extra2 ∧
      button_to_egui BTN_LEFT = .Primary ∧
      (∀ b : Nat, b ∉ [BTN_RIGHT, BTN_MIDDLE, BTN_BACK, BTN_SIDE, BTN_FORWARD, BTN_EXTRA] →
        button_to_egui b = .Primary) := by
  intro d sid q app h
  refine ⟨?_, ?_, ?_, fun b => ?_, fun b => ?_, fun hs vs => ?_,
    by decide, by decide, by decide, by decide, by decide, by decide, by decide,
    fun b hb => ?_⟩
  · simp [handle_pointer_event, h, pointer_event_to_egui, request_repaint, eventsOf,
      eventsOfApps, alLookup_alInsert_self]
  · simp [handle_pointer_event, h, pointer_event_to_egui, request_repaint, eventsOf,
      eventsOfApps, alLookup_alInsert_self]
  · simp [handle_pointer_event, h, pointer_event_to_egui]
  · simp [handle_pointer_event, h, pointer_event_to_egui, request_repaint, eventsOf,
      eventsOfApps, alLookup_alInsert_self]
  · simp [handle_pointer_event, h, pointer_event_to_egui, request_repaint, eventsOf,
      eventsOfApps, alLookup_alInsert_self]
  · simp [handle_pointer_event, h, pointer_event_to_egui, request_repaint, eventsOf,
      eventsOfApps, alLookup_alInsert_self]
  · simp only [List.mem_cons, List.not_mem_nil, or_false, not_or] at hb
    obtain ⟨h1, h2, h3, h4, h5, h6⟩ := hb
    simp [button_to_egui, h1, h2, h3, h4, h5, h6]

/-- Witness for C9 on dFix at position (4, 7) with button code BTN_RIGHT. -/
theorem C9_pointer_translation_witness :
    alLookup dFix.apps 0 = some appFix ∧
    eventsOf (handle_pointer_event dFix ⟨0, (4, 7), .Motion⟩).1 0 =
      appFix.events ++ [Event.PointerMoved ⟨4, 7⟩] ∧
    eventsOf (handle_pointer_event dFix ⟨0, (4, 7), .Press BTN_RIGHT⟩).1 0 =
      appFix.events ++
        [Event.PointerButton ⟨4, 7⟩ (button_to_egui BTN_RIGHT) true appFix.modifiers] :=
  ⟨rfl, (C9_pointer_translation dFix 0 (4, 7) appFix rfl).1,
   (C9_pointer_translation dFix 0 (4, 7) appFix rfl).2.2.2.1 BTN_RIGHT⟩

/-! Helper lemmas for the append-implies-repaint invariant. -/

theorem mem_insertSet_self (l : List ObjectId) (s : ObjectId) : s ∈ insertSet l s := by
  by_cases h : s ∈ l <;> simp [insertSet, h]

theorem mem_insertSet_of_mem (l : List ObjectId) (s x : ObjectId) (h : x ∈ l) :
    x ∈ insertSet l s := by
  by_cases hs : s ∈ l <;> simp [insertSet, hs, h]

theorem mem_insertSet_elim (l : List ObjectId) (s x : ObjectId) (h : x ∈ insertSet l s) :
    x ∈ l ∨ x = s := by
  by_cases hs : s ∈ l
  · rw [insertSet, if_pos hs] at h
    exact .inl h
  · rw [insertSet, if_neg hs] at h
    rcases List.mem_cons.mp h with h | h
    · exact .inr h
    · exact .inl h

theorem cancel_pass1_isSome (l : List (Int × TouchState)) (apps : List (ObjectId × LayerApp))
    (sid : ObjectId) (h : (alLookup apps sid).isSome) :
    (alLookup (cancel_pass1 apps l).1 sid).isSome := by
  induction l generalizing apps with
  | nil => exact h
  | cons hd tl ih =>
    obtain ⟨id, ts⟩ := hd
    cases ha : alLookup apps ts.surface_id with
    | none =>
      simp only [cancel_pass1, ha]
      exact ih apps h
    | some app =>
      simp only [cancel_pass1, ha]
      exact ih _ (alLookup_alInsert_isSome _ _ _ _ h)

theorem cancel_pass1_mem_isSome (l : List (Int × TouchState))
    (apps : List (ObjectId × LayerApp)) (sid : ObjectId)
    (h : sid ∈ (cancel_pass1 apps l).2) :
    (alLookup (cancel_pass1 apps l).1 sid).isSome := by
  induction l generalizing apps with
  | nil => simp [cancel_pass1] at h
  | cons hd tl ih =>
    obtain ⟨id, ts⟩ := hd
    cases ha : alLookup apps ts.surface_id with
    | none =>
      simp only [cancel_pass1, ha] at h ⊢
      exact ih apps h
    | some app =>
      simp only [cancel_pass1, ha] at h ⊢
      rcases mem_insertSet_elim _ _ _ h with h | h
      · exact ih _ h
      · rw [h]
        exact cancel_pass1_isSome tl _ ts.surface_id (by simp [alLookup_alInsert_self])

theorem cancel_pass1_changed_mem (l : List (Int × TouchState))
    (apps : List (ObjectId × LayerApp)) (sid : ObjectId)
    (h : eventsOfApps (cancel_pass1 apps l).1 sid ≠ eventsOfApps apps sid) :
    sid ∈ (cancel_pass1 apps l).2 := by
  induction l generalizing apps with
  | nil => exact absurd rfl h
  | cons hd tl ih =>
    obtain ⟨id, ts⟩ := hd
    cases ha : alLookup apps ts.surface_id with
    | none =>
      simp only [cancel_pass1, ha] at h ⊢
      exact ih apps h
    | some app =>
      simp only [cancel_pass1, ha] at h ⊢
      by_cases hs : sid = ts.surface_id
      · subst hs
        exact mem_insertSet_self _ _
      · refine mem_insertSet_of_mem _ _ _ (ih _ (fun he => h ?_))
        exact he.trans (eventsOfApps_alInsert_ne apps sid ts.surface_id _ hs)

theorem cancel_pass2_repaint (sids : List ObjectId) (apps : List (ObjectId × LayerApp))
    (sid : ObjectId) (hmem : sid ∈ sids) (hsome : (alLookup apps sid).isSome) :
    Effect.request_repaint sid ∈ (cancel_pass2 apps sids).2 := by
  induction sids generalizing apps with
  | nil => cases hmem
  | cons hd tl ih =>
    cases ha : alLookup apps hd with
    | none =>
      simp only [cancel_pass2, ha]
      rcases List.mem_cons.mp hmem with he | ht
      · subst he
        rw [ha] at hsome
        cases hsome
      · exact ih apps ht hsome
    | some app =>
      simp only [cancel_pass2, ha]
      rcases List.mem_cons.mp hmem with he | ht
      · subst he
        exact List.mem_append_left _ (request_repaint_self_mem _ _)
      · exact List.mem_append_right _ (ih _ ht (alLookup_alInsert_isSome _ _ _ _ hsome))

theorem cancel_pass2_changed_mem (sids : List ObjectId) (apps : List (ObjectId × LayerApp))
    (sid : ObjectId)
    (h : eventsOfApps (cancel_pass2 apps sids).1 sid ≠ eventsOfApps apps sid) :
    sid ∈ sids := by
  induction sids generalizing apps with
  | nil => exact absurd rfl h
  | cons hd tl ih =>
    cases ha : alLookup apps hd with
    | none =>
      simp only [cancel_pass2, ha] at h
      exact List.mem_cons_of_mem _ (ih apps h)
    | some app =>
      by_cases hs : sid = hd
      · exact hs ▸ List.mem_cons_self _ _
      · simp only [cancel_pass2, ha] at h
        refine List.mem_cons_of_mem _ (ih _ (fun he => h (he.trans ?_)))
        exact eventsOfApps_alInsert_ne apps sid hd _ hs

theorem touch_down_repaint (d : ContextDelegate) (s : ObjectId) (id : Int) (pos : ℚ × ℚ)
    (sid : ObjectId) (h : eventsOf (touch_down d s id pos).1 sid ≠ eventsOf d sid) :
    Effect.request_repaint sid ∈ (touch_down d s id pos).2 := by
  unfold touch_down at *
  cases ha : alLookup d.apps s with
  | none =>
    rw [ha] at h
    exact absurd rfl h
  | some app =>
    simp only [ha] at h ⊢
    by_cases hs : sid = s
    · subst hs
      exact request_repaint_self_mem _ _
    · exact absurd (eventsOfApps_alInsert_ne d.apps sid s _ hs) h

theorem touch_up_repaint (d : ContextDelegate) (id : Int) (sid : ObjectId)
    (h : eventsOf (touch_up d id).1 sid ≠ eventsOf d sid) :
    Effect.request_repaint sid ∈ (touch_up d id).2 := by
  unfold touch_up at *
  cases ht : alLookup d.touches id with
  | none =>
    rw [ht] at h
    exact absurd rfl h
  | some ts =>
    simp only [ht] at h ⊢
    cases ha : alLookup d.apps ts.surface_id with
    | none =>
      rw [ha] at h
      exact absurd rfl h
    | some app =>
      simp only [ha] at h ⊢
      by_cases hs : sid = ts.surface_id
      · subst hs
        exact request_repaint_self_mem _ _
      · exact absurd (eventsOfApps_alInsert_ne d.apps sid ts.surface_id _ hs) h

theorem touch_motion_repaint (d : ContextDelegate) (id : Int) (pos : ℚ × ℚ) (sid : ObjectId)
    (h : eventsOf (touch_motion d id pos).1 sid ≠ eventsOf d sid) :
    Effect.request_repaint sid ∈ (touch_motion d id pos).2 := by
  unfold touch_motion at *
  cases ht : alLookup d.touches id with
  | none =>
    rw [ht] at h
    exact absurd rfl h
  | some ts =>
    simp only [ht] at h ⊢
    cases ha : alLookup d.apps ts.surface_id with
    | none =>
      rw [ha] at h
      exact absurd rfl h
    | some app =>
      simp only [ha] at h ⊢
      by_cases hs : sid = ts.surface_id
      · subst hs
        exact request_repaint_self_mem _ _
      · exact absurd (eventsOfApps_alInsert_ne d.apps sid ts.surface_id _ hs) h

theorem touch_cancel_repaint (d : ContextDelegate) (sid : ObjectId)
    (h : eventsOf (touch_cancel d).1 sid ≠ eventsOf d sid) :
    Effect.request_repaint sid ∈ (touch_cancel d).2 := by
  unfold touch_cancel at *
  by_cases h1 : eventsOfApps (cancel_pass1 d.apps d.touches).1 sid = eventsOfApps d.apps sid
  · have h2 : eventsOfApps
        (cancel_pass2 (cancel_pass1 d.apps d.touches).1 (cancel_pass1 d.apps d.touches).2).1
          sid ≠
        eventsOfApps (cancel_pass1 d.apps d.touches).1 sid := by
      rw [h1]
      exact h
    have hmem := cancel_pass2_changed_mem _ _ sid h2
    exact cancel_pass2_repaint _ _ sid hmem (cancel_pass1_mem_isSome _ _ sid hmem)
  · have hmem := cancel_pass1_changed_mem d.touches d.apps sid h1
    exact cancel_pass2_repaint _ _ sid hmem (cancel_pass1_mem_isSome _ _ sid hmem)

theorem handle_pointer_event_repaint (d : ContextDelegate) (ev : PointerEvent)
    (sid : ObjectId) (h : eventsOf (handle_pointer_event d ev).1 sid ≠ eventsOf d sid) :
    Effect.request_repaint sid ∈ (handle_pointer_event d ev).2 := by
  unfold handle_pointer_event at *
  cases ha : alLookup d.apps ev.surface with
  | none =>
    rw [ha] at h
    exact absurd rfl h
  | some app =>
    simp only [ha] at h ⊢
    cases he : pointer_event_to_egui app ⟨ev.position.1, ev.position.2⟩ ev.kind with
    | none =>
      rw [he] at h
      exact absurd rfl h
    | some e =>
      simp only [he] at h ⊢
      by_cases hs : sid = ev.surface
      · subst hs
        exact request_repaint_self_mem _ _
      · exact absurd (eventsOfApps_alInsert_ne d.apps sid ev.surface _ hs) h

theorem pointer_frame_repaint (evs : List PointerEvent) (d : ContextDelegate)
    (sid : ObjectId) (h : eventsOf (pointer_frame d evs).1 sid ≠ eventsOf d sid) :
    Effect.request_repaint sid ∈ (pointer_frame d evs).2 := by
  induction evs generalizing d with
  | nil => exact absurd rfl h
  | cons ev tl ih =>
    simp only [pointer_frame] at h ⊢
    by_cases h1 : eventsOf (handle_pointer_event d ev).1 sid = eventsOf d sid
    · have h2 : eventsOf (pointer_frame (handle_pointer_event d ev).1 tl).1 sid ≠
          eventsOf (handle_pointer_event d ev).1 sid := by
        rw [h1]
        exact h
      exact List.mem_append_right _ (ih _ h2)
    · exact List.mem_append_left _ (handle_pointer_event_repaint d ev sid h1)

theorem key_event_repaint (d : ContextDelegate) (ev : KeyEvent) (pressed : Bool)
    (sid : ObjectId) (hk : (wl_to_egui ev.keysym).isSome)
    (h : eventsOf (key_event d ev pressed).1 sid ≠ eventsOf d sid) :
    Effect.request_repaint sid ∈ (key_event d ev pressed).2 := by
  unfold key_event at *
  cases hf : d.apps.find? (fun p => p.2.keyboard_focus) with
  | none =>
    rw [hf] at h
    exact absurd rfl h
  | some p =>
    obtain ⟨sid0, app⟩ := p
    simp only [hf] at h ⊢
    cases hw : wl_to_egui ev.keysym with
    | none =>
      rw [hw] at hk
      cases hk
    | some key =>
      simp only [hw] at h ⊢
      by_cases hs : sid = sid0
      · subst hs
        exact request_repaint_self_mem _ _
      · exact absurd (eventsOfApps_alInsert_ne d.apps sid sid0 _ hs) h

theorem keyboard_enter_no_repaint (d : ContextDelegate) (sid : ObjectId) :
    (keyboard_enter d sid).2 = [] := by
  unfold keyboard_enter
  cases h : alLookup d.apps sid <;> rfl

theorem keyboard_leave_no_repaint (d : ContextDelegate) (sid : ObjectId) :
    (keyboard_leave d sid).2 = [] := by
  unfold keyboard_leave
  cases h : alLookup d.apps sid <;> rfl

theorem update_modifiers_no_repaint (d : ContextDelegate) (m : RawModifiers) :
    (update_modifiers d m).2 = [] := by
  unfold update_modifiers
  cases h : d.apps.find? (fun p => p.2.keyboard_focus) with
  | none => rfl
  | some p =>
    obtain ⟨sid0, app⟩ := p
    rfl

/-- C8 counterexample: a key press whose key symbol is unrecognized but whose
utf8 payload is printable appends a Text event to the focused app's pending
list, yet the handler returns early and requests no repaint — refuting the
claim that every handler path appending a text event also calls the
repaint-request hook. -/
theorem C8_text_without_repaint_counterexample :
    eventsOf (key_event dFix { keysym := 1000, utf8 := some "a" } true).1 0 =
      [Event.Text "a"] ∧
    eventsOf dFix 0 = [] ∧
    (key_event dFix { keysym := 1000, utf8 := some "a" } true).2 = [] := by
  refine ⟨by decide, rfl, by decide⟩

/-- C8 (amended): whenever a handler appends an event to an Application
Entry's pending list it also invokes the repaint-request hook in the same
invocation — for the touch, pointer and recognized-key paths; keyboard focus
enter/leave and pure modifier updates never request a repaint; the one
further exception is a text event accompanying an unrecognized key symbol,
which is appended without a repaint request (the early return skips the
hook). -/
theorem C8_event_append_triggers_repaint :
    (∀ (d : ContextDelegate) (s : ObjectId) (id : Int) (pos : ℚ × ℚ) (sid : ObjectId),
      eventsOf (touch_down d s id pos).1 sid ≠ eventsOf d sid →
      Effect.request_repaint sid ∈ (touch_down d s id pos).2) ∧
    (∀ (d : ContextDelegate) (id : Int) (sid : ObjectId),
      eventsOf (touch_up d id).1 sid ≠ eventsOf d sid →
      Effect.request_repaint sid ∈ (touch_up d id).2) ∧
    (∀ (d : ContextDelegate) (id : Int) (pos : ℚ × ℚ) (sid : ObjectId),
      eventsOf (touch_motion d id pos).1 sid ≠ eventsOf d sid →
      Effect.request_repaint sid ∈ (touch_motion d id pos).2) ∧
    (∀ (d : ContextDelegate) (sid : ObjectId),
      eventsOf (touch_cancel d).1 sid ≠ eventsOf d sid →
      Effect.request_repaint sid ∈ (touch_cancel d).2) ∧
    (∀ (d : ContextDelegate) (evs : List PointerEvent) (sid : ObjectId),
      eventsOf (pointer_frame d evs).1 sid ≠ eventsOf d sid →
      Effect.request_repaint sid ∈ (pointer_frame d evs).2) ∧
    (∀ (d : ContextDelegate) (ev : KeyEvent) (pressed : Bool) (sid : ObjectId),
      (wl_to_egui ev.keysym).isSome →
      eventsOf (key_event d ev pressed).1 sid ≠ eventsOf d sid →
      Effect.request_repaint sid ∈ (key_event d ev pressed).2) ∧
    (∀ (d : ContextDelegate) (sid : ObjectId), (keyboard_enter d sid).2 = []) ∧
    (∀ (d : ContextDelegate) (sid : ObjectId), (keyboard_leave d sid).2 = []) ∧
    (∀ (d : ContextDelegate) (m : RawModifiers), (update_modifiers d m).2 = []) :=
  ⟨touch_down_repaint, touch_up_repaint, touch_motion_repaint, touch_cancel_repaint,
   fun d evs => pointer_frame_repaint evs d, key_event_repaint,
   keyboard_enter_no_repaint, keyboard_leave_no_repaint, update_modifiers_no_repaint⟩

/-- Witness for C8 (amended): a touch-down and a recognized key press on
dFix both append events and both carry a repaint request; a keyboard enter
carries none. -/
theorem C8_event_append_triggers_repaint_witness :
    (eventsOf (touch_down dFix 0 1 (2, 3)).1 0 ≠ eventsOf dFix 0) ∧
    Effect.request_repaint 0 ∈ (touch_down dFix 0 1 (2, 3)).2 ∧
    (wl_to_egui (5 : Nat)).isSome ∧
    (eventsOf (key_event dFix { keysym := 5, utf8 := none } true).1 0 ≠ eventsOf dFix 0) ∧
    Effect.request_repaint 0 ∈ (key_event dFix { keysym := 5, utf8 := none } true).2 ∧
    (keyboard_enter dFix 0).2 = [] :=
  ⟨by decide, C8_event_append_triggers_repaint.1 dFix 0 1 (2, 3) 0 (by decide),
   by decide, by decide,
   C8_event_append_triggers_repaint.2.2.2.2.2.1 dFix { keysym := 5, utf8 := none } true 0
     (by decide) (by decide),
   C8_event_append_triggers_repaint.2.2.2.2.2.2.1 dFix 0⟩

end EguiWlrLayer
